import Mathlib

/-!
Verification development for the ConsultEase repository.

Part I embeds the frontend chat dispatch logic
(`frontend/src/lib/api.ts`, `chat.sendMessage`) and the chat store
state transition (`frontend/src/store/chatStore.ts`, `sendMessage`).
Strings are modelled through their character lists; JavaScript
`toLowerCase`, `trim`, `includes` become character-list operations.

Part II models the backend routing/classification pipeline.  The
routing code (`router.py`, `enhanced_routing_logic.py`) is not part of
the source snapshot (only `ROUTING_INTEGRATION_SUMMARY.md` documents
it), so the pipeline is modelled from the specification's component
design: signal extractors, heuristic classifier, primary-classifier
boundary, safety classifier and router orchestration.
-/

set_option maxRecDepth 8000

/-- Boolean test that `p` is a prefix of `l`, over any decidable type. -/
def isPrefixB {α : Type} [DecidableEq α] : List α → List α → Bool
  | [], _ => true
  | _ :: _, [] => false
  | a :: as, b :: bs => if a = b then isPrefixB as bs else false

/-- Boolean test that `p` occurs contiguously inside `l`
(the model of JavaScript's `String.includes`). -/
def isInfixB {α : Type} [DecidableEq α] (p : List α) : List α → Bool
  | [] => p.isEmpty
  | b :: bs => isPrefixB p (b :: bs) || isInfixB p bs

theorem isPrefixB_iff {α : Type} [DecidableEq α] (p l : List α) :
    isPrefixB p l = true ↔ ∃ t, l = p ++ t := by
  induction p generalizing l with
  | nil => simp [isPrefixB]
  | cons a as ih =>
    cases l with
    | nil => simp [isPrefixB]
    | cons b bs =>
      by_cases hab : a = b
      · subst hab
        simp [isPrefixB, ih bs]
      · constructor
        · intro h
          simp [isPrefixB, hab] at h
        · rintro ⟨t, ht⟩
          rw [List.cons_append] at ht
          injection ht with h1 h2
          exact absurd h1.symm hab

theorem isInfixB_iff {α : Type} [DecidableEq α] (p l : List α) :
    isInfixB p l = true ↔ ∃ s t, l = s ++ p ++ t := by
  induction l with
  | nil =>
    simp [isInfixB, List.isEmpty_iff]
  | cons b bs ih =>
    simp only [isInfixB, Bool.or_eq_true, isPrefixB_iff, ih]
    constructor
    · rintro (⟨t, ht⟩ | ⟨s, t, ht⟩)
      · exact ⟨[], t, by simp [ht]⟩
      · exact ⟨b :: s, t, by simp [ht]⟩
    · rintro ⟨s, t, ht⟩
      cases s with
      | nil =>
        exact Or.inl ⟨t, by simpa using ht⟩
      | cons c cs =>
        rw [List.cons_append, List.cons_append] at ht
        injection ht with h1 h2
        exact Or.inr ⟨cs, t, by simp [h2]⟩

/-! ## Frontend chat dispatch (`frontend/src/lib/api.ts`, `chat.sendMessage`) -/

/-- The six exact-match greeting words of `api.ts`. -/
def greetingWords : List String := ["hi", "hello", "hey", "hola", "howdy", "greetings"]

/-- The four greeting phrases checked by substring containment. -/
def greetingPhrases : List String :=
  ["good morning", "good afternoon", "good evening", "good night"]

/-- The eleven client-listing phrases of `api.ts`. -/
def clientQueries : List String :=
  ["show all clients", "list all clients", "get all clients", "all clients",
   "show clients", "list clients", "get clients", "clients list",
   "what clients do we have", "who are our clients", "client list"]

/-- The complex-query phrases of `api.ts` that force the regular endpoint. -/
def complexQueries : List String :=
  ["clients with contracts", "clients and contracts", "clients along with contracts",
   "show clients with their contracts", "list clients and their contracts",
   "clients with their contracts", "all clients with their contracts",
   "show me all clients with their contracts", "show all clients with contracts",
   "billing", "billing date", "billing prompt", "upcoming billing",
   "next billing", "billing frequency", "contracts with billing",
   "amount more than", "original amount more than", "amount greater than",
   "original amount greater than", "more than $", "greater than $",
   "contracts for all clients with", "contracts with amount"]

/-- Character-level model of JavaScript `message.toLowerCase()`. -/
def toLowerChars (s : String) : List Char := s.data.map Char.toLower

/-- Character-level model of JavaScript `trim`. -/
def trimChars (cs : List Char) : List Char :=
  ((cs.dropWhile Char.isWhitespace).reverse.dropWhile Char.isWhitespace).reverse

/-- `request.message.toLowerCase().trim()` of `api.ts`. -/
def normMessage (raw : String) : List Char := trimChars (toLowerChars raw)

/-- `greetings.includes(message)`: exact equality with one of the six words. -/
def isSimpleGreeting (m : List Char) : Bool := greetingWords.any (fun g => g.data == m)

/-- `greetingPhrases.some((phrase) => message.includes(phrase))`. -/
def isPhraseGreeting (m : List Char) : Bool :=
  greetingPhrases.any (fun p => isInfixB p.data m)

/-- `isSimpleGreeting || isPhraseGreeting`. -/
def isGreeting (m : List Char) : Bool := isSimpleGreeting m || isPhraseGreeting m

/-- `complexQueries.some((query) => message.toLowerCase().includes(query))`;
the source lowercases the (already lowercased) message a second time. -/
def isComplexQuery (m : List Char) : Bool :=
  complexQueries.any (fun q => isInfixB q.data (m.map Char.toLower))

/-- `clientQueries.some((query) => message.includes(query)) && !isComplexQuery`. -/
def isClientQuery (m : List Char) : Bool :=
  clientQueries.any (fun q => isInfixB q.data m) && !isComplexQuery m

/-- Which backend endpoint `chat.sendMessage` dispatches a message to. -/
inductive Endpoint : Type
  | greeting
  | clients
  | regular
deriving DecidableEq, Repr

/-- The dispatch decision of `chat.sendMessage`: greeting check first,
then the fast-clients check, else the regular `/api/chat/message` endpoint. -/
def sendMessageEndpoint (raw : String) : Endpoint :=
  let m := normMessage raw
  if isGreeting m then Endpoint.greeting
  else if isClientQuery m then Endpoint.clients
  else Endpoint.regular

/-- `m` contains one of `phrases` as a contiguous substring. -/
def ContainsOneOf (phrases : List String) (m : List Char) : Prop :=
  ∃ q ∈ phrases, ∃ s t, m = s ++ q.data ++ t

theorem containsOneOf_iff (phrases : List String) (m : List Char) :
    phrases.any (fun q => isInfixB q.data m) = true ↔ ContainsOneOf phrases m := by
  simp only [List.any_eq_true, ContainsOneOf, isInfixB_iff]

/-! ## Chat store (`frontend/src/store/chatStore.ts`, `sendMessage`) -/

/-- The authenticated user shape used by `sendMessage` (from `authStore`). -/
structure FrontUser : Type where
  user_id : String
  role : String
  full_name : String
  first_name : Option String
  last_name : Option String
deriving DecidableEq, Repr

/-- The backend `ChatResponse` consumed by the store. -/
structure FrontChatResponse : Type where
  success : Bool
  response : String
  error : Option String
  agent : String
  timestamp : String
  session_id : String
  workflow_id : Option String
deriving DecidableEq, Repr

/-- One entry of the store's `messages` list. -/
structure FrontChatMessage : Type where
  id : String
  message : String
  response : String
  agent : String
  success : Bool
  timestamp : String
  session_id : String
  workflow_id : Option String
  isUser : Bool
deriving DecidableEq, Repr

/-- The store state touched by `sendMessage`. -/
structure ChatStoreState : Type where
  messages : List FrontChatMessage
  isTyping : Bool
  error : Option String
  sessionId : String
deriving DecidableEq, Repr

/-- Outcome of the `chatApi.sendMessage` call: the promise rejects with an
error message, or resolves with a `ChatResponse`. -/
inductive ApiOutcome : Type
  | throws (err : String)
  | returns (resp : FrontChatResponse)
deriving DecidableEq, Repr

/-- JavaScript `a || b` on strings: the empty string is falsy. -/
def jsOr (a b : String) : String := if a = "" then b else a

/-- JavaScript `a || b` where `a` may be `undefined`. -/
def jsOrOpt (a : Option String) (b : String) : String :=
  match a with
  | none => b
  | some s => jsOr s b

/-- `response.response || response.error || 'Request failed'`. -/
def failureMessage (resp : FrontChatResponse) : String :=
  jsOr resp.response (jsOrOpt resp.error "Request failed")

/-- The user message appended to the chat before the backend call. -/
def mkUserMessage (ts : String) (st : ChatStoreState) (messageText : String)
    (displayMessage : Option String) : FrontChatMessage :=
  { id := "user_" ++ ts
    message := displayMessage.getD messageText
    response := ""
    agent := "User"
    success := true
    timestamp := ts
    session_id := st.sessionId
    workflow_id := none
    isUser := true }

/-- The agent message appended on a successful response. -/
def mkAgentMessage (ts messageText : String) (resp : FrontChatResponse) :
    FrontChatMessage :=
  { id := "agent_" ++ ts
    message := messageText
    response := resp.response
    agent := resp.agent
    success := resp.success
    timestamp := resp.timestamp
    session_id := resp.session_id
    workflow_id := resp.workflow_id
    isUser := false }

/-- State transition of `chatStore.sendMessage`.  `Date.now()` is modelled by
the parameter `ts`.  The user message is appended before the backend call;
a rejected promise or a `success=false` response lands in the `catch` block,
which clears `isTyping` and records the error but leaves the appended user
message in place. -/
def storeSendMessage (user : Option FrontUser) (outcome : ApiOutcome) (ts : String)
    (st : ChatStoreState) (messageText : String) (displayMessage : Option String) :
    ChatStoreState :=
  match user with
  | none => { st with error := some "User not authenticated" }
  | some _ =>
    let st1 : ChatStoreState := { st with isTyping := true, error := none }
    let st2 : ChatStoreState :=
      { st1 with messages := st1.messages ++ [mkUserMessage ts st messageText displayMessage] }
    match outcome with
    | ApiOutcome.throws e => { st2 with isTyping := false, error := some e }
    | ApiOutcome.returns resp =>
      if resp.success then
        { st2 with
            messages := st2.messages ++ [mkAgentMessage ts messageText resp]
            isTyping := false }
      else
        { st2 with isTyping := false, error := some (failureMessage resp) }

/-- The backend interaction counts as failed when the promise rejects or the
response carries `success=false`. -/
def apiFailed : ApiOutcome → Bool
  | ApiOutcome.throws _ => true
  | ApiOutcome.returns resp => !resp.success

/-! ## Routing pipeline data model

Modelled from the spec: the routing code (`router.py`,
`enhanced_routing_logic.py`) is not in the source snapshot, so the data
model of spec section 3 is embedded directly. -/

/-- Ordered confidence tiers `low < medium < high`. -/
inductive Confidence : Type
  | low
  | medium
  | high
deriving DecidableEq, Repr

/-- Numeric level of a confidence tier, for the ordering. -/
def confLevel : Confidence → Nat
  | Confidence.low => 0
  | Confidence.medium => 1
  | Confidence.high => 2

/-- `a` is at least `b` in the confidence order. -/
def confAtLeast (a b : Confidence) : Bool := decide (confLevel b ≤ confLevel a)

/-- Which classifier produced a decision. -/
inductive Stage : Type
  | primary
  | heuristic
  | safety
deriving DecidableEq, Repr

/-- Operation type detected in a message. -/
inductive OpType : Type
  | create
  | read
  | update
  | delete
  | unknown
deriving DecidableEq, Repr

/-- Modelled from the spec: `AgentDescriptor` with id, keyword vocabulary and
operation affinities (a finite mapping, embedded as an association list). -/
structure AgentDescriptor : Type where
  agent_id : String
  domain_keywords : List String
  operation_affinities : List (OpType × Nat)
deriving DecidableEq, Repr

/-- Affinity boost of descriptor `d` for operation `op` (0 when absent). -/
def affinityFor (d : AgentDescriptor) (op : OpType) : Nat :=
  match d.operation_affinities.find? (fun p => decide (p.1 = op)) with
  | some p => p.2
  | none => 0

/-- Modelled from the spec: one piece of evidence produced by an extractor. -/
structure ClassificationSignal : Type where
  source : String
  candidate_agent : String
  weight : Nat
  matched_terms : List String
deriving DecidableEq, Repr

/-- Modelled from the spec: the final routing output. -/
structure RoutingDecision : Type where
  selected_agent : String
  confidence : Confidence
  reasoning : String
  stage : Stage
  signals_considered : List ClassificationSignal
deriving DecidableEq, Repr

/-- Modelled from the spec: the read-only router configuration — descriptor
set, safety default agent and the primary acceptance threshold. -/
structure RouterConfig : Type where
  descriptors : List AgentDescriptor
  default_agent : String
  min_confidence : Confidence

/-- The agent id belongs to the configured descriptor set. -/
def knownAgent (cfg : RouterConfig) (a : String) : Bool :=
  cfg.descriptors.any (fun d => d.agent_id == a)

/-! ## Signal extractors (spec section 4.1) -/

/-- Word characters: alphanumerics and underscore, so `employee_number`
stays one token. -/
def isWordChar (c : Char) : Bool := c.isAlphanum || c == '_'

/-- Splits a character list into maximal word-character runs. -/
def splitWordsAux : List Char → List Char → List (List Char)
  | [], acc => if acc.isEmpty then [] else [acc.reverse]
  | c :: rest, acc =>
    if isWordChar c then splitWordsAux rest (c :: acc)
    else if acc.isEmpty then splitWordsAux rest []
    else acc.reverse :: splitWordsAux rest []

/-- Tokens of a message with original casing (for capitalization checks). -/
def rawTokens (s : String) : List (List Char) := splitWordsAux s.data []

/-- Lowercases one token. -/
def lowerToken (cs : List Char) : List Char := cs.map Char.toLower

/-- Lowercased tokens of a message. -/
def msgTokens (s : String) : List (List Char) := (rawTokens s).map lowerToken

/-- Modelled from the spec: keyword signal weight proportional to
specificity — the length of the matched term. -/
def keywordWeight (kw : String) : Nat := kw.length

/-- Modelled from the spec: `extract_keyword_signals` scans the lowercased
message for whole-word or phrase occurrences of each descriptor's
keywords; each match yields one signal. -/
def extract_keyword_signals (message : String) (descriptors : List AgentDescriptor) :
    List ClassificationSignal :=
  (descriptors.map (fun d =>
    (d.domain_keywords.filter (fun kw => isInfixB (msgTokens kw) (msgTokens message))).map
      (fun kw =>
        { source := "keyword"
          candidate_agent := d.agent_id
          weight := keywordWeight kw
          matched_terms := [kw] }))).flatten

def createVerbs : List String := ["create", "add", "new"]
def updateVerbs : List String := ["update", "change", "set", "modify", "edit"]
def deleteVerbs : List String := ["remove", "delete", "terminate"]
def readVerbs : List String := ["show", "list", "get", "what", "who", "display"]

/-- Modelled from the spec: `extract_operation_type` pattern-matches
imperative verbs; `unknown` when nothing matches, never fails. -/
def extract_operation_type (message : String) : OpType :=
  let ts := msgTokens message
  if createVerbs.any (fun v => ts.contains v.data) then OpType.create
  else if updateVerbs.any (fun v => ts.contains v.data) then OpType.update
  else if deleteVerbs.any (fun v => ts.contains v.data) then OpType.delete
  else if readVerbs.any (fun v => ts.contains v.data) then OpType.read
  else OpType.unknown

/-- A token starting with an uppercase letter. -/
def isCapTok (cs : List Char) : Bool :=
  match cs with
  | [] => false
  | c :: _ => c.isUpper

/-- Finds the first index of two consecutive capitalized tokens. -/
def findPersonAux : Nat → List (List Char) → Option (Nat × List Char × List Char)
  | _, [] => none
  | _, [_] => none
  | i, a :: b :: rest =>
    if isCapTok a && isCapTok b then some (i, a, b)
    else findPersonAux (i + 1) (b :: rest)

/-- Entity-context output: a detected person name and nearby tokens. -/
structure EntityContext : Type where
  person_name : Option String
  context_window : List String
deriving DecidableEq, Repr

/-- How many tokens on each side of the name form the context window. -/
def contextRadius : Nat := 5

/-- Modelled from the spec: `extract_entity_context` detects a capitalized
multi-token span as a person name and captures nearby tokens (lowercased)
as the disambiguation context window.  Best-effort; no name is not an
error. -/
def extract_entity_context (message : String) : EntityContext :=
  let raw := rawTokens message
  match findPersonAux 0 raw with
  | none => { person_name := none, context_window := [] }
  | some (i, a, b) =>
    let before := ((raw.take i).reverse.take contextRadius).reverse
    let after := (raw.drop (i + 2)).take contextRadius
    { person_name := some (String.mk (a ++ ' ' :: b))
      context_window := (before ++ after).map (fun cs => String.mk (lowerToken cs)) }

/-! ## Heuristic classifier (spec section 4.2) -/

/-- Weight of the entity-context disambiguation boost. -/
def disambiguationBoost : Nat := 10

/-- Modelled from the spec: when a person name was found and a context-window
term maps unambiguously to exactly one agent's keyword set, emit a
disambiguation signal for that agent. -/
def disambigSignals (message : String) (descriptors : List AgentDescriptor) :
    List ClassificationSignal :=
  let ec := extract_entity_context message
  if ec.person_name.isSome then
    (ec.context_window.map (fun w =>
      match descriptors.filter (fun d => d.domain_keywords.contains w) with
      | [d] =>
        [{ source := "entity_context"
           candidate_agent := d.agent_id
           weight := disambiguationBoost
           matched_terms := [w] }]
      | _ => [])).flatten
  else []

/-- The full signal list of one routing call: keyword signals then
disambiguation signals. -/
def allSignals (cfg : RouterConfig) (message : String) : List ClassificationSignal :=
  extract_keyword_signals message cfg.descriptors ++ disambigSignals message cfg.descriptors

/-- Signals supporting one candidate agent. -/
def signalsFor (sigs : List ClassificationSignal) (agent : String) :
    List ClassificationSignal :=
  sigs.filter (fun s => s.candidate_agent == agent)

/-- Sum of signal weights. -/
def signalWeightSum (sigs : List ClassificationSignal) : Nat :=
  (sigs.map (fun s => s.weight)).sum

/-- Modelled from the spec: per-agent score — the weight sum of its signals
plus its operation-affinity boost; agents with no signal score zero. -/
def agentScore (cfg : RouterConfig) (msg : String) (d : AgentDescriptor) : Nat :=
  match signalsFor (allSignals cfg msg) d.agent_id with
  | [] => 0
  | s :: rest => signalWeightSum (s :: rest) + affinityFor d (extract_operation_type msg)

/-- Number of distinct matched terms among an agent's signals (first
tie-break criterion). -/
def distinctTermCount (cfg : RouterConfig) (msg : String) (d : AgentDescriptor) : Nat :=
  ((signalsFor (allSignals cfg msg) d.agent_id).map
      (fun s => s.matched_terms)).flatten.dedup.length

/-- Tie-break key: score first, then distinct matched-term count. -/
def hKey (cfg : RouterConfig) (msg : String) (d : AgentDescriptor) : Nat × Nat :=
  (agentScore cfg msg d, distinctTermCount cfg msg d)

/-- Strict lexicographic order on score keys, as a Boolean. -/
def lexLtB (a b : Nat × Nat) : Bool :=
  decide (a.1 < b.1) || (decide (a.1 = b.1) && decide (a.2 < b.2))

/-- Strict lexicographic order on score keys, as a proposition. -/
def LexLtP (a b : Nat × Nat) : Prop :=
  a.1 < b.1 ∨ (a.1 = b.1 ∧ a.2 < b.2)

theorem lexLtB_iff (a b : Nat × Nat) : lexLtB a b = true ↔ LexLtP a b := by
  simp [lexLtB, LexLtP]

/-- Selects the best element by the key, keeping the earlier element on
exact key ties — so list position is the fixed priority ordering. -/
def pickBest {α : Type} (key : α → Nat × Nat) : α → List α → α
  | acc, [] => acc
  | acc, d :: rest => pickBest key (if lexLtB (key acc) (key d) then d else acc) rest

/-- The winning descriptor of the heuristic classifier (`none` only for an
empty descriptor list). -/
def selectedDescriptor (cfg : RouterConfig) (msg : String) : Option AgentDescriptor :=
  match cfg.descriptors with
  | [] => none
  | d :: rest => some (pickBest (hKey cfg msg) d rest)

/-- Baseline signal weight: a `high` tier needs a signal above it. -/
def baselineWeight : Nat := 6

/-- Margin factor: `high` needs the top score to be at least twice the
runner-up. -/
def marginFactor : Nat := 2

/-- Maximum of a list of scores. -/
def maxNat (l : List Nat) : Nat := l.foldr Nat.max 0

/-- Some extracted signal is above the baseline weight. -/
def strongSignal (cfg : RouterConfig) (msg : String) : Bool :=
  (allSignals cfg msg).any (fun s => decide (baselineWeight < s.weight))

/-- Modelled from the spec: the confidence tiers of section 4.2 step 4 —
`high` on a wide margin with an above-baseline signal, `medium` on a clear
but narrower lead, `low` on a tie or when all scores are zero. -/
def decideConfidence (scores : List Nat) (top : Nat) (strong : Bool) : Confidence :=
  let second := maxNat (scores.erase top)
  if top = 0 then Confidence.low
  else if decide (second < top) && decide (second * marginFactor ≤ top) && strong then
    Confidence.high
  else if decide (second < top) then Confidence.medium
  else Confidence.low

/-- Name of an operation type, for reasoning strings. -/
def opName : OpType → String
  | OpType.create => "create"
  | OpType.read => "read"
  | OpType.update => "update"
  | OpType.delete => "delete"
  | OpType.unknown => "unknown"

/-- Modelled from the spec: the safety classifier's fixed decision. -/
def safetyClassify (cfg : RouterConfig) : RoutingDecision :=
  { selected_agent := cfg.default_agent
    confidence := Confidence.low
    reasoning := "default fallback"
    stage := Stage.safety
    signals_considered := [] }

/-- Modelled from the spec: the heuristic classifier — extract signals,
score agents with affinity boosts, select by score with the
distinct-term/priority tie-break, and attach a confidence tier. -/
def heuristicClassify (cfg : RouterConfig) (msg : String) : RoutingDecision :=
  match selectedDescriptor cfg msg with
  | none => safetyClassify cfg
  | some best =>
    let sigs := allSignals cfg msg
    { selected_agent := best.agent_id
      confidence :=
        decideConfidence (cfg.descriptors.map (fun d => agentScore cfg msg d))
          (agentScore cfg msg best) (strongSignal cfg msg)
      reasoning :=
        "heuristic selected " ++ best.agent_id ++ " on operation " ++
          opName (extract_operation_type msg)
      stage := Stage.heuristic
      signals_considered := sigs }

/-! ## Router orchestration (spec sections 4.3 to 4.5) -/

/-- Outcome of the external primary classifier call, as seen by the router:
a timeout, a transport or service error, or a structured response. -/
inductive PrimaryOutcome : Type
  | timeout
  | transportError
  | response (agent_id : String) (conf : Confidence) (reasoning : String)
deriving DecidableEq, Repr

/-- The evidence a validated primary response contributes. -/
def primarySignal (a : String) : ClassificationSignal :=
  { source := "primary_classifier"
    candidate_agent := a
    weight := 1
    matched_terms := [] }

/-- Modelled from the spec: the router accepts a primary response only when
it names a known agent id and meets the acceptance threshold; everything
else (timeout, transport error, unknown agent, low confidence) is a
failure. -/
def primaryAccepted (cfg : RouterConfig) : PrimaryOutcome → Option RoutingDecision
  | PrimaryOutcome.response a c r =>
    if knownAgent cfg a && confAtLeast c cfg.min_confidence then
      some { selected_agent := a
             confidence := c
             reasoning := r
             stage := Stage.primary
             signals_considered := [primarySignal a] }
    else none
  | _ => none

/-- The primary stage failed for this outcome. -/
def primaryFailed (cfg : RouterConfig) (p : PrimaryOutcome) : Bool :=
  (primaryAccepted cfg p).isNone

/-- Modelled from the spec: router orchestration.  The heuristic stage is
passed as a possibly-failing function (`none` models an unexpected raise,
caught at the router boundary); the safety classifier is the last line of
defense.  The result type has no error channel: the router never raises. -/
def route (cfg : RouterConfig) (heurImpl : String → Option RoutingDecision)
    (p : PrimaryOutcome) (msg : String) : RoutingDecision :=
  match primaryAccepted cfg p with
  | some d => d
  | none =>
    match heurImpl msg with
    | some d => d
    | none => safetyClassify cfg

/-- The router with its real heuristic stage. -/
def routeTotal (cfg : RouterConfig) (p : PrimaryOutcome) (msg : String) : RoutingDecision :=
  route cfg (fun m => some (heuristicClassify cfg m)) p msg

/-! ## Concrete ConsultEase configuration

Modelled from the spec: agent domains of section 1 and the summary's agent
ids (`employee_agent`, `client_agent`, `contract_agent`, deliverable, time
and user agents, with `client_agent` as the default fallback; billing
vocabulary is handled by the contract agent).  The descriptor list order
is the fixed tie-break priority ordering. -/

def stdAffinities : List (OpType × Nat) :=
  [(OpType.create, 2), (OpType.update, 2), (OpType.delete, 2), (OpType.read, 2)]

def clientDesc : AgentDescriptor :=
  { agent_id := "client_agent"
    domain_keywords :=
      ["client", "clients", "customer", "contact", "company", "corporation",
       "organization"]
    operation_affinities := stdAffinities }

def employeeDesc : AgentDescriptor :=
  { agent_id := "employee_agent"
    domain_keywords :=
      ["employee", "employees", "employee_number", "staff", "salary",
       "developer", "hire"]
    operation_affinities := stdAffinities }

def contractDesc : AgentDescriptor :=
  { agent_id := "contract_agent"
    domain_keywords := ["contract", "contracts", "agreement", "billing", "amount"]
    operation_affinities := stdAffinities }

def deliverableDesc : AgentDescriptor :=
  { agent_id := "deliverable_agent"
    domain_keywords := ["deliverable", "deliverables", "milestone", "task"]
    operation_affinities := stdAffinities }

def timeDesc : AgentDescriptor :=
  { agent_id := "time_agent"
    domain_keywords := ["time", "hours", "timesheet"]
    operation_affinities := stdAffinities }

def userDesc : AgentDescriptor :=
  { agent_id := "user_agent"
    domain_keywords := ["user", "users", "password", "login", "account"]
    operation_affinities := stdAffinities }

/-- The fixed ConsultEase router configuration. -/
def consultEaseConfig : RouterConfig :=
  { descriptors :=
      [clientDesc, employeeDesc, contractDesc, deliverableDesc, timeDesc, userDesc]
    default_agent := "client_agent"
    min_confidence := Confidence.medium }

/-! ## Properties of the tie-break selection -/

theorem lexLt_irrefl (a : Nat × Nat) : ¬ LexLtP a a := by
  simp [LexLtP]

theorem lexLt_trans {a b c : Nat × Nat} (h1 : LexLtP a b) (h2 : LexLtP b c) :
    LexLtP a c := by
  rcases a with ⟨a1, a2⟩
  rcases b with ⟨b1, b2⟩
  rcases c with ⟨c1, c2⟩
  simp only [LexLtP] at *
  omega

theorem lexLt_connex {a b : Nat × Nat} (h : ¬ LexLtP a b) : LexLtP b a ∨ a = b := by
  rcases a with ⟨a1, a2⟩
  rcases b with ⟨b1, b2⟩
  simp only [LexLtP, Prod.mk.injEq] at *
  omega

theorem pickBest_mem {α : Type} (key : α → Nat × Nat) (acc : α) (l : List α) :
    pickBest key acc l ∈ acc :: l := by
  induction l generalizing acc with
  | nil => simp [pickBest]
  | cons d rest ih =>
    rw [pickBest]
    by_cases hb : lexLtB (key acc) (key d) = true
    · simp only [hb, if_true]
      exact List.mem_cons_of_mem acc (ih d)
    · simp only [hb, Bool.false_eq_true, if_false]
      rcases List.mem_cons.mp (ih acc) with h1 | h1
      · rw [h1]
        exact List.mem_cons_self _ _
      · exact List.mem_cons_of_mem _ (List.mem_cons_of_mem _ h1)

theorem pickBest_opt {α : Type} (key : α → Nat × Nat) (acc : α) (l : List α) :
    ∀ x ∈ acc :: l, ¬ LexLtP (key (pickBest key acc l)) (key x) := by
  induction l generalizing acc with
  | nil =>
    intro x hx
    rcases List.mem_cons.mp hx with rfl | h
    · simpa [pickBest] using lexLt_irrefl (key x)
    · exact absurd h (List.not_mem_nil x)
  | cons d rest ih =>
    intro x hx
    rw [pickBest]
    by_cases hb : lexLtB (key acc) (key d) = true
    · simp only [hb, if_true]
      have hlt : LexLtP (key acc) (key d) := (lexLtB_iff _ _).mp hb
      rcases List.mem_cons.mp hx with rfl | hx2
      · intro hcon
        exact ih d d (List.mem_cons_self d rest) (lexLt_trans hcon hlt)
      · exact ih d x hx2
    · simp only [hb, Bool.false_eq_true, if_false]
      have hnlt : ¬ LexLtP (key acc) (key d) := fun hc => hb ((lexLtB_iff _ _).mpr hc)
      rcases List.mem_cons.mp hx with rfl | hx2
      · exact ih x x (List.mem_cons_self _ _)
      · rcases List.mem_cons.mp hx2 with rfl | hx3
        · intro hcon
          have hba := ih acc acc (List.mem_cons_self _ _)
          rcases lexLt_connex hnlt with h1 | h1
          · exact hba (lexLt_trans hcon h1)
          · rw [← h1] at hcon
            exact hba hcon
        · exact ih acc x (List.mem_cons_of_mem _ hx3)

theorem pickBest_first {α : Type} (key : α → Nat × Nat) (acc : α) (l : List α) :
    (acc :: l).find? (fun x => decide (key x = key (pickBest key acc l))) =
      some (pickBest key acc l) := by
  induction l generalizing acc with
  | nil =>
    simp only [pickBest]
    exact List.find?_cons_of_pos _ (by simp)
  | cons d rest ih =>
    rw [pickBest]
    by_cases hb : lexLtB (key acc) (key d) = true
    · simp only [hb, if_true]
      have hlt : LexLtP (key acc) (key d) := (lexLtB_iff _ _).mp hb
      have hdb : ¬ LexLtP (key (pickBest key d rest)) (key d) :=
        pickBest_opt key d rest d (List.mem_cons_self d rest)
      have hne : ¬ (key acc = key (pickBest key d rest)) := by
        intro he
        rcases lexLt_connex hdb with h1 | h1
        · exact lexLt_irrefl _ (he ▸ lexLt_trans hlt h1)
        · rw [he, h1] at hlt
          exact lexLt_irrefl _ hlt
      rw [List.find?_cons_of_neg _ (by simp [hne]), ih d]
    · simp only [hb, Bool.false_eq_true, if_false]
      have hnacc : ¬ LexLtP (key acc) (key d) := fun hc => hb ((lexLtB_iff _ _).mpr hc)
      have ihacc := ih acc
      by_cases hpa : key acc = key (pickBest key acc rest)
      · have heq : some acc = some (pickBest key acc rest) := by
          rw [← ihacc]
          exact (List.find?_cons_of_pos _ (by simp [hpa])).symm
        rw [List.find?_cons_of_pos _ (by simp [hpa])]
        exact heq
      · have hrest : rest.find?
            (fun x => decide (key x = key (pickBest key acc rest))) =
            some (pickBest key acc rest) := by
          rw [List.find?_cons_of_neg _ (by simp [hpa])] at ihacc
          exact ihacc
        have hab : ¬ LexLtP (key (pickBest key acc rest)) (key acc) :=
          pickBest_opt key acc rest acc (List.mem_cons_self _ _)
        have hacclt : LexLtP (key acc) (key (pickBest key acc rest)) := by
          rcases lexLt_connex hab with h1 | h1
          · exact h1
          · exact absurd h1.symm hpa
        have hnd : ¬ (key d = key (pickBest key acc rest)) := by
          intro he
          rcases lexLt_connex hnacc with h1 | h1
          · exact lexLt_irrefl _ (he ▸ lexLt_trans h1 hacclt)
          · exact hpa (h1.trans he)
        rw [List.find?_cons_of_neg _ (by simp [hpa]),
          List.find?_cons_of_neg _ (by simp [hnd])]
        exact hrest

theorem knownAgent_of_mem {cfg : RouterConfig} {d : AgentDescriptor}
    (h : d ∈ cfg.descriptors) : knownAgent cfg d.agent_id = true := by
  simp only [knownAgent, List.any_eq_true]
  exact ⟨d, h, by simp⟩

/-! ## Claim theorems: routing pipeline -/

/-- C1: for every input string (including the empty string) and every
primary-classifier outcome, one call to the router yields exactly one
`RoutingDecision`; the result type has no error channel, and even when the
heuristic stage is modelled as raising (`none`), the router still resolves
to the safety decision instead of propagating a failure. -/
theorem c1_route_totality :
    (∀ (cfg : RouterConfig) (heurImpl : String → Option RoutingDecision)
        (p : PrimaryOutcome) (msg : String),
      ∃! d : RoutingDecision, route cfg heurImpl p msg = d) ∧
    (∀ (cfg : RouterConfig) (p : PrimaryOutcome) (msg : String),
      primaryFailed cfg p = true →
        route cfg (fun _ => none) p msg = safetyClassify cfg) := by
  constructor
  · intro cfg heurImpl p msg
    exact ⟨route cfg heurImpl p msg, rfl, fun y hy => hy.symm⟩
  · intro cfg p msg h
    have hnone : primaryAccepted cfg p = none := Option.isNone_iff_eq_none.mp h
    simp [route, hnone]

/-- Witness for C1 at a concrete input: primary timed out, the heuristic
stage raised, the message is empty — the router still returns the safety
decision. -/
theorem c1_route_totality_witness :
    route consultEaseConfig (fun _ => none) PrimaryOutcome.timeout "" =
      safetyClassify consultEaseConfig :=
  c1_route_totality.2 consultEaseConfig PrimaryOutcome.timeout "" rfl

/-- C7: the safety classifier's output is the fixed decision — the
configured default agent, `low` confidence, stage `safety`, reasoning
"default fallback" and no signals; for the ConsultEase configuration the
default agent is `client_agent`. -/
theorem c7_safety_fixed :
    (∀ cfg : RouterConfig,
      safetyClassify cfg =
        { selected_agent := cfg.default_agent
          confidence := Confidence.low
          reasoning := "default fallback"
          stage := Stage.safety
          signals_considered := [] }) ∧
    (safetyClassify consultEaseConfig).selected_agent = "client_agent" :=
  ⟨fun _ => rfl, rfl⟩

/-- C2: the selected agent of every routing decision is a configured agent
id — for the full router on any primary outcome and message, for the
heuristic classifier alone, for the safety classifier, and for any
validated primary response. -/
theorem c2_known_agent_closure :
    (∀ (p : PrimaryOutcome) (msg : String),
      knownAgent consultEaseConfig
        (routeTotal consultEaseConfig p msg).selected_agent = true) ∧
    (∀ msg : String,
      knownAgent consultEaseConfig
        (heuristicClassify consultEaseConfig msg).selected_agent = true) ∧
    knownAgent consultEaseConfig (safetyClassify consultEaseConfig).selected_agent = true ∧
    (∀ (p : PrimaryOutcome) (d : RoutingDecision),
      primaryAccepted consultEaseConfig p = some d →
        knownAgent consultEaseConfig d.selected_agent = true) := by
  have hheur : ∀ msg : String,
      knownAgent consultEaseConfig
        (heuristicClassify consultEaseConfig msg).selected_agent = true := by
    intro msg
    have hmem := pickBest_mem (hKey consultEaseConfig msg) clientDesc
      [employeeDesc, contractDesc, deliverableDesc, timeDesc, userDesc]
    exact knownAgent_of_mem hmem
  have hprim : ∀ (p : PrimaryOutcome) (d : RoutingDecision),
      primaryAccepted consultEaseConfig p = some d →
        knownAgent consultEaseConfig d.selected_agent = true := by
    intro p d h
    cases p with
    | timeout => exact Option.noConfusion h
    | transportError => exact Option.noConfusion h
    | response a c r =>
      simp only [primaryAccepted] at h
      by_cases hc : (knownAgent consultEaseConfig a &&
          confAtLeast c consultEaseConfig.min_confidence) = true
      · rw [if_pos hc] at h
        cases h
        simp only [Bool.and_eq_true] at hc
        exact hc.1
      · rw [if_neg hc] at h
        exact Option.noConfusion h
  refine ⟨?_, hheur, by decide, hprim⟩
  intro p msg
  rcases hp : primaryAccepted consultEaseConfig p with _ | d
  · have hr : routeTotal consultEaseConfig p msg = heuristicClassify consultEaseConfig msg := by
      simp [routeTotal, route, hp]
    rw [hr]
    exact hheur msg
  · have hr : routeTotal consultEaseConfig p msg = d := by
      simp [routeTotal, route, hp]
    rw [hr]
    exact hprim p d hp

/-- Witness for C2 at a concrete accepted primary response. -/
theorem c2_known_agent_closure_witness :
    knownAgent consultEaseConfig
      (RoutingDecision.mk "employee_agent" Confidence.high "model rationale"
        Stage.primary [primarySignal "employee_agent"]).selected_agent = true :=
  c2_known_agent_closure.2.2.2
    (PrimaryOutcome.response "employee_agent" Confidence.high "model rationale")
    (RoutingDecision.mk "employee_agent" Confidence.high "model rationale"
      Stage.primary [primarySignal "employee_agent"])
    (by decide)

/-- C5: on every failure of the primary classifier — timeout, transport or
service error, a response naming an unknown agent id, or below-threshold
confidence — the router resolves to the heuristic classifier's decision in
the same call, with stage `heuristic`; no error value is produced. -/
theorem c5_primary_failure_fallback (p : PrimaryOutcome) (msg : String)
    (h : p = PrimaryOutcome.timeout ∨ p = PrimaryOutcome.transportError ∨
      ∃ a c r, p = PrimaryOutcome.response a c r ∧
        (knownAgent consultEaseConfig a = false ∨
         confAtLeast c consultEaseConfig.min_confidence = false)) :
    routeTotal consultEaseConfig p msg = heuristicClassify consultEaseConfig msg ∧
    (routeTotal consultEaseConfig p msg).stage = Stage.heuristic := by
  have hnone : primaryAccepted consultEaseConfig p = none := by
    rcases h with rfl | rfl | ⟨a, c, r, rfl, hf⟩
    · rfl
    · rfl
    · simp only [primaryAccepted]
      rcases hf with hf | hf <;> simp [hf]
  have hr : routeTotal consultEaseConfig p msg = heuristicClassify consultEaseConfig msg := by
    simp [routeTotal, route, hnone]
  refine ⟨hr, ?_⟩
  rw [hr]
  rfl

/-- Witness for C5 at a timeout on the regression message. -/
theorem c5_primary_failure_fallback_witness :
    routeTotal consultEaseConfig PrimaryOutcome.timeout
        "Update employee_number to EMP10 for Tina Miles" =
      heuristicClassify consultEaseConfig
        "Update employee_number to EMP10 for Tina Miles" ∧
    (routeTotal consultEaseConfig PrimaryOutcome.timeout
        "Update employee_number to EMP10 for Tina Miles").stage = Stage.heuristic :=
  c5_primary_failure_fallback PrimaryOutcome.timeout
    "Update employee_number to EMP10 for Tina Miles" (Or.inl rfl)

/-- Counterexample to C3: for the empty message with a failed primary
stage, the heuristic classifier produces zero signals, so the resulting
decision has an empty `signals_considered` while its stage is `heuristic`,
not `safety` — refuting the claimed equivalence in the only-if direction. -/
theorem c3_counterexample :
    (routeTotal consultEaseConfig PrimaryOutcome.timeout "").signals_considered = [] ∧
    (routeTotal consultEaseConfig PrimaryOutcome.timeout "").stage ≠ Stage.safety := by
  decide

/-- C3 amended: `signals_considered` is empty whenever the stage is
`safety`; a validated primary decision always carries a nonempty signal
list; a heuristic decision carries exactly the extracted signal list — so
emptiness implies stage `safety` only fails for messages yielding zero
signals at the heuristic stage. -/
theorem c3_signals_stage_characterization :
    (∀ cfg : RouterConfig, (safetyClassify cfg).signals_considered = []) ∧
    (∀ msg : String,
      (heuristicClassify consultEaseConfig msg).signals_considered =
        allSignals consultEaseConfig msg ∧
      (heuristicClassify consultEaseConfig msg).stage = Stage.heuristic) ∧
    (∀ (p : PrimaryOutcome) (d : RoutingDecision),
      primaryAccepted consultEaseConfig p = some d → d.signals_considered ≠ []) := by
  refine ⟨fun _ => rfl, fun msg => ⟨rfl, rfl⟩, ?_⟩
  intro p d h
  cases p with
  | timeout => exact Option.noConfusion h
  | transportError => exact Option.noConfusion h
  | response a c r =>
    simp only [primaryAccepted] at h
    by_cases hc : (knownAgent consultEaseConfig a &&
        confAtLeast c consultEaseConfig.min_confidence) = true
    · rw [if_pos hc] at h
      cases h
      simp
    · rw [if_neg hc] at h
      exact Option.noConfusion h

/-- Witness for the amended C3 at a concrete accepted primary response. -/
theorem c3_signals_stage_characterization_witness :
    (RoutingDecision.mk "contract_agent" Confidence.medium "model rationale b"
      Stage.primary [primarySignal "contract_agent"]).signals_considered ≠ [] :=
  c3_signals_stage_characterization.2.2
    (PrimaryOutcome.response "contract_agent" Confidence.medium "model rationale b")
    (RoutingDecision.mk "contract_agent" Confidence.medium "model rationale b"
      Stage.primary [primarySignal "contract_agent"])
    (by decide)

/-- C4: the regression message routes to the employee agent at high
confidence, and the entity-context disambiguation signal for the term
`employee_number` near the person name is among the considered signals;
the router's heuristic fallback returns the same decision. -/
theorem c4_disambiguation_regression :
    (heuristicClassify consultEaseConfig
      "Update employee_number to EMP10 for Tina Miles").selected_agent =
        "employee_agent" ∧
    (heuristicClassify consultEaseConfig
      "Update employee_number to EMP10 for Tina Miles").confidence = Confidence.high ∧
    ClassificationSignal.mk "entity_context" "employee_agent" disambiguationBoost
        ["employee_number"] ∈
      (heuristicClassify consultEaseConfig
        "Update employee_number to EMP10 for Tina Miles").signals_considered ∧
    routeTotal consultEaseConfig PrimaryOutcome.timeout
        "Update employee_number to EMP10 for Tina Miles" =
      heuristicClassify consultEaseConfig
        "Update employee_number to EMP10 for Tina Miles" := by
  decide

/-- C6: the heuristic classifier is deterministic and its tie-break is the
documented rule: the winner is a configured descriptor whose score is
maximal, beats equal-score rivals on distinct matched-term count, and on
exact key ties is the first descriptor in the fixed priority ordering
(the descriptor list) — never a random choice.  Identical inputs give
identical decisions since the classifier is a pure function of the
configuration and the message. -/
theorem c6_heuristic_deterministic_tiebreak (msg : String) :
    ∃ best : AgentDescriptor,
      selectedDescriptor consultEaseConfig msg = some best ∧
      (heuristicClassify consultEaseConfig msg).selected_agent = best.agent_id ∧
      best ∈ consultEaseConfig.descriptors ∧
      (∀ d ∈ consultEaseConfig.descriptors,
        agentScore consultEaseConfig msg d < agentScore consultEaseConfig msg best ∨
          (agentScore consultEaseConfig msg d = agentScore consultEaseConfig msg best ∧
           distinctTermCount consultEaseConfig msg d ≤
             distinctTermCount consultEaseConfig msg best)) ∧
      consultEaseConfig.descriptors.find?
          (fun d => decide (hKey consultEaseConfig msg d = hKey consultEaseConfig msg best)) =
        some best := by
  refine ⟨pickBest (hKey consultEaseConfig msg) clientDesc
    [employeeDesc, contractDesc, deliverableDesc, timeDesc, userDesc],
    rfl, rfl, ?_, ?_, ?_⟩
  · exact pickBest_mem _ _ _
  · intro d hd
    have hopt := pickBest_opt (hKey consultEaseConfig msg) clientDesc
      [employeeDesc, contractDesc, deliverableDesc, timeDesc, userDesc] d hd
    rcases lexLt_connex hopt with h1 | h1
    · have h2 : agentScore consultEaseConfig msg d <
          agentScore consultEaseConfig msg
            (pickBest (hKey consultEaseConfig msg) clientDesc
              [employeeDesc, contractDesc, deliverableDesc, timeDesc, userDesc]) ∨
          (agentScore consultEaseConfig msg d =
            agentScore consultEaseConfig msg
              (pickBest (hKey consultEaseConfig msg) clientDesc
                [employeeDesc, contractDesc, deliverableDesc, timeDesc, userDesc]) ∧
           distinctTermCount consultEaseConfig msg d <
            distinctTermCount consultEaseConfig msg
              (pickBest (hKey consultEaseConfig msg) clientDesc
                [employeeDesc, contractDesc, deliverableDesc, timeDesc, userDesc])) := h1
      rcases h2 with h2 | ⟨h2, h3⟩
      · exact Or.inl h2
      · exact Or.inr ⟨h2, Nat.le_of_lt h3⟩
    · exact Or.inr ⟨(congrArg Prod.fst h1).symm, Nat.le_of_eq (congrArg Prod.snd h1).symm⟩
  · exact pickBest_first _ _ _

/-! ## Claim theorems: frontend dispatch and chat store -/

theorem isComplexQuery_iff (m : List Char) :
    isComplexQuery m = true ↔ ContainsOneOf complexQueries (m.map Char.toLower) :=
  containsOneOf_iff complexQueries (m.map Char.toLower)

theorem isClientAny_iff (m : List Char) :
    clientQueries.any (fun q => isInfixB q.data m) = true ↔
      ContainsOneOf clientQueries m :=
  containsOneOf_iff clientQueries m

/-- Counterexample to C8: "Good morning, show all clients" contains a
client-listing phrase and no complex-query phrase, yet `sendMessage`
dispatches it to the fast greeting endpoint, not `/api/chat/clients`,
because the greeting check runs first. -/
theorem c8_counterexample :
    clientQueries.any
        (fun q => isInfixB q.data (normMessage "Good morning, show all clients")) =
      true ∧
    isComplexQuery (normMessage "Good morning, show all clients") = false ∧
    sendMessageEndpoint "Good morning, show all clients" = Endpoint.greeting ∧
    sendMessageEndpoint "Good morning, show all clients" ≠ Endpoint.clients := by
  decide

/-- C8 amended: among messages not classified as greetings, a message is
dispatched to `/api/chat/clients` if and only if its lowercased trimmed
form contains one of the eleven client-listing phrases and none of the
complex-query phrases; in particular every non-greeting message containing
"billing" or an amount-filter phrase goes to `/api/chat/message`. -/
theorem c8_clients_dispatch_amended (raw : String)
    (h : isGreeting (normMessage raw) = false) :
    (sendMessageEndpoint raw = Endpoint.clients ↔
      (ContainsOneOf clientQueries (normMessage raw) ∧
        ¬ ContainsOneOf complexQueries ((normMessage raw).map Char.toLower))) ∧
    (ContainsOneOf complexQueries ((normMessage raw).map Char.toLower) →
      sendMessageEndpoint raw = Endpoint.regular) := by
  have hae : sendMessageEndpoint raw =
      if isClientQuery (normMessage raw) then Endpoint.clients else Endpoint.regular := by
    simp [sendMessageEndpoint, h]
  have hcq : isClientQuery (normMessage raw) = true ↔
      (ContainsOneOf clientQueries (normMessage raw) ∧
        ¬ ContainsOneOf complexQueries ((normMessage raw).map Char.toLower)) := by
    rw [isClientQuery, Bool.and_eq_true, isClientAny_iff]
    constructor
    · rintro ⟨h1, h2⟩
      refine ⟨h1, ?_⟩
      intro hc
      have h3 := (isComplexQuery_iff _).mpr hc
      simp [h3] at h2
    · rintro ⟨h1, h2⟩
      refine ⟨h1, ?_⟩
      cases hcx : isComplexQuery (normMessage raw) with
      | false => rfl
      | true => exact absurd ((isComplexQuery_iff _).mp hcx) h2
  constructor
  · rw [hae]
    constructor
    · intro he
      by_cases hc : isClientQuery (normMessage raw) = true
      · exact hcq.mp hc
      · rw [if_neg hc] at he
        exact absurd he (by decide)
    · intro hrhs
      rw [if_pos (hcq.mpr hrhs)]
  · intro hcx
    rw [hae]
    have hcf : isClientQuery (normMessage raw) = false := by
      have h3 : isComplexQuery (normMessage raw) = true := (isComplexQuery_iff _).mpr hcx
      simp [isClientQuery, h3]
    simp [hcf]

/-- Witness for the amended C8: "show all clients" is not a greeting and is
dispatched to the fast clients endpoint. -/
theorem c8_clients_dispatch_amended_witness :
    sendMessageEndpoint "show all clients" = Endpoint.clients := by
  have h := (c8_clients_dispatch_amended "show all clients" (by decide)).1
  refine h.mpr ⟨⟨"show all clients", by decide, [], [], by decide⟩, ?_⟩
  intro hc
  have h3 := (isComplexQuery_iff (normMessage "show all clients")).mpr hc
  have h4 : isComplexQuery (normMessage "show all clients") = false := by decide
  rw [h4] at h3
  exact Bool.noConfusion h3

/-- C10: greeting detection of `chat.sendMessage` is asymmetric — the fast
greeting endpoint is taken exactly when the lowercased trimmed message is
literally one of the six greeting words, or contains one of the four
greeting phrases as a substring anywhere; so "hi there" is not a greeting
while "Well, good morning everyone!" is. -/
theorem c10_greeting_asymmetry :
    (∀ raw : String,
      sendMessageEndpoint raw = Endpoint.greeting ↔
        ((∃ g ∈ greetingWords, normMessage raw = g.data) ∨
          ContainsOneOf greetingPhrases (normMessage raw))) ∧
    sendMessageEndpoint "hi there" = Endpoint.regular ∧
    sendMessageEndpoint "Hey" = Endpoint.greeting ∧
    sendMessageEndpoint "Well, good morning everyone!" = Endpoint.greeting := by
  refine ⟨?_, by decide, by decide, by decide⟩
  intro raw
  have hg : isGreeting (normMessage raw) = true ↔
      ((∃ g ∈ greetingWords, normMessage raw = g.data) ∨
        ContainsOneOf greetingPhrases (normMessage raw)) := by
    rw [isGreeting, Bool.or_eq_true]
    apply or_congr
    · rw [isSimpleGreeting, List.any_eq_true]
      constructor
      · rintro ⟨g, hg1, hg2⟩
        exact ⟨g, hg1, (beq_iff_eq.mp hg2).symm⟩
      · rintro ⟨g, hg1, hg2⟩
        exact ⟨g, hg1, by simp [hg2]⟩
    · exact containsOneOf_iff _ _
  constructor
  · intro he
    rw [← hg]
    by_cases hgb : isGreeting (normMessage raw) = true
    · exact hgb
    · exfalso
      simp only [sendMessageEndpoint] at he
      rw [if_neg hgb] at he
      by_cases hcl : isClientQuery (normMessage raw) = true
      · rw [if_pos hcl] at he
        exact absurd he (by decide)
      · rw [if_neg hcl] at he
        exact absurd he (by decide)
  · intro hr
    have hgb := hg.mpr hr
    simp [sendMessageEndpoint, hgb]


/-- C9: `chatStore.sendMessage` is not atomic on failure — the user message
is appended before the backend call, so when the call rejects or returns
`success=false` the list has grown by exactly one (the user message stays),
`isTyping` is reset and `error` is set; on success the list grows by
exactly two, the user message then the agent message. -/
theorem c9_store_nonatomic (u : FrontUser) (o : ApiOutcome) (ts : String)
    (st : ChatStoreState) (mt : String) (dm : Option String) :
    (apiFailed o = true →
      (∃ um : FrontChatMessage,
        (storeSendMessage (some u) o ts st mt dm).messages = st.messages ++ [um] ∧
        um.isUser = true ∧
        (storeSendMessage (some u) o ts st mt dm).messages.length =
          st.messages.length + 1) ∧
      (storeSendMessage (some u) o ts st mt dm).isTyping = false ∧
      (storeSendMessage (some u) o ts st mt dm).error.isSome = true) ∧
    (apiFailed o = false →
      (∃ um am : FrontChatMessage,
        (storeSendMessage (some u) o ts st mt dm).messages = st.messages ++ [um, am] ∧
        um.isUser = true ∧ am.isUser = false ∧
        (storeSendMessage (some u) o ts st mt dm).messages.length =
          st.messages.length + 2) ∧
      (storeSendMessage (some u) o ts st mt dm).isTyping = false ∧
      (storeSendMessage (some u) o ts st mt dm).error = none) := by
  cases o with
  | throws e =>
    constructor
    · intro _
      refine ⟨⟨mkUserMessage ts st mt dm, rfl, rfl, ?_⟩, rfl, rfl⟩
      simp [storeSendMessage]
    · intro hf
      simp [apiFailed] at hf
  | returns resp =>
    rcases resp with ⟨rs, rr, rerr, rag, rts, rsid, rwid⟩
    cases rs with
    | true =>
      constructor
      · intro hf
        simp [apiFailed] at hf
      · intro _
        refine ⟨⟨mkUserMessage ts st mt dm,
          mkAgentMessage ts mt ⟨true, rr, rerr, rag, rts, rsid, rwid⟩,
          ?_, rfl, rfl, ?_⟩, rfl, rfl⟩
        · simp [storeSendMessage]
        · simp [storeSendMessage]
    | false =>
      constructor
      · intro _
        refine ⟨⟨mkUserMessage ts st mt dm, rfl, rfl, ?_⟩, rfl, rfl⟩
        simp [storeSendMessage]
      · intro hf
        simp [apiFailed] at hf

/-- Concrete user for the C9 witness. -/
def c9User : FrontUser :=
  { user_id := "u1", role := "admin", full_name := "Ada L",
    first_name := none, last_name := none }

/-- Concrete store state for the C9 witness. -/
def c9State : ChatStoreState :=
  { messages := [], isTyping := false, error := none, sessionId := "s1" }

/-- Witness for C9 at a concrete rejected backend call. -/
theorem c9_store_nonatomic_witness :
    (∃ um : FrontChatMessage,
      (storeSendMessage (some c9User) (ApiOutcome.throws "network down") "t1" c9State
        "list clients" none).messages = c9State.messages ++ [um] ∧
      um.isUser = true ∧
      (storeSendMessage (some c9User) (ApiOutcome.throws "network down") "t1" c9State
        "list clients" none).messages.length = c9State.messages.length + 1) ∧
    (storeSendMessage (some c9User) (ApiOutcome.throws "network down") "t1" c9State
      "list clients" none).isTyping = false ∧
    (storeSendMessage (some c9User) (ApiOutcome.throws "network down") "t1" c9State
      "list clients" none).error.isSome = true :=
  (c9_store_nonatomic c9User (ApiOutcome.throws "network down") "t1" c9State
    "list clients" none).1 rfl

/-- Witness for C6 at a concrete message: the characterization pins the
winner, which for "list clients" is the client agent. -/
theorem c6_heuristic_deterministic_tiebreak_witness :
    (heuristicClassify consultEaseConfig "list clients").selected_agent =
      "client_agent" := by
  obtain ⟨best, hsel, hag, -, -, -⟩ :=
    c6_heuristic_deterministic_tiebreak "list clients"
  have h2 : selectedDescriptor consultEaseConfig "list clients" = some clientDesc := by
    decide
  rw [h2] at hsel
  injection hsel with hbest
  rw [hag, ← hbest]
  rfl
